import Mathlib

/-!
Shallow embedding of `src/ixwebsocket/IXSocketConnect.cpp`.

The file models the three functions of the source:
  * `SocketConnect.configure`      (IXSocketConnect.cpp, lines 181-201)
  * `SocketConnect.connectToAddress` (lines 56-143)
  * `SocketConnect.connect`        (lines 145-179)

The OS environment (the results of `socket`, `::connect`, `select`/`FD_ISSET`,
`getsockopt`, and the cancellation predicate) is modelled per resolved address
by the structure `AddrInfo` and by a cancellation stream `cancel : Nat → Bool`
indexed by the number of cancellation polls performed so far.  Every
socket-related call the code makes is recorded in an event trace so that
resource claims (which sockets were opened/closed, what configuration ran and
when) can be stated.  The embedding models the non-Windows build in which
`SO_NOSIGPIPE` is defined (the Apple branch of the source), which performs all
three configuration steps.
-/

namespace SocketConnect

/-- Observable socket-level actions performed by the code, recorded in order. -/
inductive Ev
  | openSock (fd : Nat)
  | setNoDelay (fd : Nat)
  | setNonBlocking (fd : Nat)
  | setNoSigPipe (fd : Nat)
  | connectCall (fd : Nat)
  | selectWait (fd : Nat)
  | closeSock (fd : Nat)
  deriving DecidableEq, Repr

/-- The error messages the source can place in its `errMsg` out-parameter.
`strerror e` stands for the C `strerror(e)` text for code `e`; `noMsg` is a
caller-supplied initial value that the code may leave untouched. -/
inductive ErrMsg
  | noMsg
  | cannotCreateSocket
  | strerror (e : Int)
  | cancelled
  | timedOut
  deriving DecidableEq, Repr

/-- The literal strings the source assigns to `errMsg`. -/
def ErrMsg.render : ErrMsg → String
  | .noMsg => ""
  | .cannotCreateSocket => "Cannot create a socket"
  | .strerror e => "strerror " ++ toString e
  | .cancelled => "Cancelled"
  | .timedOut => "connect timed out after 60 seconds"

/-- POSIX `EINPROGRESS` (the value on Linux; only its identity matters). -/
def EINPROGRESS : Int := 115

/-- One resolved address record (`struct addrinfo`) together with the
environment's deterministic responses to the system calls the code issues for
it:
  * `sockResult`: result of `socket(ai_family, ai_socktype, ai_protocol)` —
    `none` models a negative return, `some fd` the created descriptor;
  * `nonBlockingSetFails`: whether `fcntl(fd, F_SETFL, O_NONBLOCK)` fails
    (the source calls it inside `configure` and discards the result);
  * `connectRet`: `none` models `::connect` returning `0`, `some e` models
    `::connect` returning `-1` with `errno = e`;
  * `writableAt i`: whether `FD_ISSET(fd, &wfds)` holds after the `select`
    in loop iteration `i` of this attempt;
  * `sockoptFails`: whether `getsockopt(fd, SOL_SOCKET, SO_ERROR, ...)`
    returns `-1` (in which case `optval` keeps its initial `-1`);
  * `pendingError`: the value a successful `getsockopt` stores in `optval`. -/
structure AddrInfo where
  sockResult : Option Nat
  nonBlockingSetFails : Bool
  connectRet : Option Int
  writableAt : Nat → Bool
  sockoptFails : Bool
  pendingError : Int

/-- Result of a run: the `bool` return / `success` flag, the `sockfd`
out-parameter, the `errMsg` out-parameter, the recorded event trace, and the
number of cancellation polls performed so far (`tEnd`). -/
structure Outcome where
  success : Bool
  sockfd : Int
  errMsg : ErrMsg
  trace : List Ev
  tEnd : Nat
  deriving DecidableEq, Repr

/-- Model of `SocketConnect::configure` (lines 181-201): disable Nagle, set
non-blocking mode, set `SO_NOSIGPIPE`.  The function returns `void` in the
source and ignores the return code of every call; hence it is modelled purely
by the actions it performs. -/
def configure (fd : Nat) : List Ev :=
  [.setNoDelay fd, .setNonBlocking fd, .setNoSigPipe fd]

/-- The constant `selectTimeOut` (line 93): 50 ms expressed in microseconds. -/
def selectTimeOut : Nat := 50 * 1000

/-- The constant `maxRetries` (line 94): the 60 s budget divided by the select slice. -/
def maxRetries : Nat := 60 * 1000 * 1000 / selectTimeOut

/-- The `for (int i = 0; i < maxRetries; ++i)` loop of `connectToAddress`
(lines 96-138), for a socket `fd` already issued a non-blocking `::connect`.
Arguments: remaining iterations, the loop index `i`, and the cancellation
poll counter `t`.  `msg` is the current value of the `errMsg` out-parameter
(left unchanged on success). -/
def connectLoop (a : AddrInfo) (fd : Nat) (cancel : Nat → Bool) (msg : ErrMsg) :
    Nat → Nat → Nat → Outcome
  | 0, _, t =>
    { success := false, sockfd := -1, errMsg := .timedOut,
      trace := [.closeSock fd], tEnd := t }
  | r + 1, i, t =>
    if cancel t then
      { success := false, sockfd := -1, errMsg := .cancelled,
        trace := [.closeSock fd], tEnd := t + 1 }
    else if a.writableAt i = false then
      -- select fired but FD_ISSET is false: wait again
      let rest := connectLoop a fd cancel msg r (i + 1) (t + 1)
      { success := rest.success, sockfd := rest.sockfd, errMsg := rest.errMsg,
        trace := .selectWait fd :: rest.trace, tEnd := rest.tEnd }
    else
      -- optval is initialized to -1 and written only if getsockopt succeeds
      let optval : Int := if a.sockoptFails then -1 else a.pendingError
      if a.sockoptFails ∨ optval ≠ 0 then
        { success := false, sockfd := -1, errMsg := .strerror optval,
          trace := [.selectWait fd, .closeSock fd], tEnd := t + 1 }
      else
        { success := true, sockfd := Int.ofNat fd, errMsg := msg,
          trace := [.selectWait fd], tEnd := t + 1 }

/-- Model of `SocketConnect::connectToAddress` (lines 56-143).  `msg` is the incoming
value of the `errMsg` out-parameter, `t` the incoming cancellation poll
counter. -/
def connectToAddress (a : AddrInfo) (cancel : Nat → Bool) (msg : ErrMsg)
    (t : Nat) : Outcome :=
  -- sockfd = -1 on entry; it is re-assigned only in the success branch
  match a.sockResult with
  | none =>
    { success := false, sockfd := -1, errMsg := .cannotCreateSocket,
      trace := [], tEnd := t }
  | some fd =>
    match a.connectRet with
    | some e =>
      if e ≠ EINPROGRESS then
        { success := false, sockfd := -1, errMsg := .strerror e,
          trace := .openSock fd :: configure fd ++ [.connectCall fd, .closeSock fd],
          tEnd := t }
      else
        let r := connectLoop a fd cancel msg maxRetries 0 t
        { success := r.success, sockfd := r.sockfd, errMsg := r.errMsg,
          trace := .openSock fd :: configure fd ++ .connectCall fd :: r.trace,
          tEnd := r.tEnd }
    | none =>
      let r := connectLoop a fd cancel msg maxRetries 0 t
      { success := r.success, sockfd := r.sockfd, errMsg := r.errMsg,
        trace := .openSock fd :: configure fd ++ .connectCall fd :: r.trace,
        tEnd := r.tEnd }

/-- The candidate loop of `SocketConnect::connect` (lines 160-178): try each
`addrinfo` record in order, breaking at the first success; `sockfd` and
`errMsg` keep the values left by the last attempt. -/
def connectList (cancel : Nat → Bool) :
    List AddrInfo → ErrMsg → Nat → Outcome
  | [], msg, t =>
    { success := false, sockfd := -1, errMsg := msg, trace := [], tEnd := t }
  | a :: rest, msg, t =>
    let r := connectToAddress a cancel msg t
    if r.success then
      { success := true, sockfd := r.sockfd, errMsg := r.errMsg,
        trace := r.trace, tEnd := r.tEnd }
    else
      let out := connectList cancel rest r.errMsg r.tEnd
      { success := out.success, sockfd := out.sockfd, errMsg := out.errMsg,
        trace := r.trace ++ out.trace, tEnd := out.tEnd }

/-- Model of `SocketConnect::connect` (lines 145-179).  DNS resolution is an external
collaborator: its outcome is the parameter `resolved` (`none` models
`dnsLookup.resolve` returning `nullptr`, in which case it has stored its own
message `resolveMsg` in `errMsg` and `connect` returns `-1`). -/
def connect (resolved : Option (List AddrInfo)) (resolveMsg : ErrMsg)
    (cancel : Nat → Bool) (msg : ErrMsg) (t : Nat) : Outcome :=
  match resolved with
  | none =>
    { success := false, sockfd := -1, errMsg := resolveMsg, trace := [], tEnd := t }
  | some addrs => connectList cancel addrs msg t

/-- The always-false cancellation signal. -/
def cancelNone : Nat → Bool := fun _ => false

/-- A candidate is reachable when its attempt, run without cancellation,
succeeds.  Defined by running the code's own attempt function. -/
def reachable (a : AddrInfo) : Bool :=
  (connectToAddress a cancelNone .noMsg 0).success

/-- The message an attempt leaves in `errMsg`, run without cancellation. -/
def attemptMsg (a : AddrInfo) : ErrMsg :=
  (connectToAddress a cancelNone .noMsg 0).errMsg

/-- The trace an attempt produces, run without cancellation. -/
def attemptTrace (a : AddrInfo) : List Ev :=
  (connectToAddress a cancelNone .noMsg 0).trace

/-- The `sockfd` an attempt leaves, run without cancellation. -/
def attemptFd (a : AddrInfo) : Int :=
  (connectToAddress a cancelNone .noMsg 0).sockfd

/-- Concatenation of the no-cancellation traces of a list of candidates. -/
def traceCat : List AddrInfo → List Ev
  | [] => []
  | a :: rest => attemptTrace a ++ traceCat rest

/-- Classifiers for trace events. -/
def isOpenEv : Ev → Bool
  | .openSock _ => true
  | _ => false

def isCloseEv : Ev → Bool
  | .closeSock _ => true
  | _ => false

def isCfgEv : Ev → Bool
  | .setNoDelay _ => true
  | .setNonBlocking _ => true
  | .setNoSigPipe _ => true
  | _ => false

def isSelectEv : Ev → Bool
  | .selectWait _ => true
  | _ => false

/-- Number of sockets opened in a trace. -/
def opens (tr : List Ev) : Nat := tr.countP isOpenEv

/-- Number of sockets closed in a trace. -/
def closes (tr : List Ev) : Nat := tr.countP isCloseEv

/-- One when the candidate's `socket` call yields a descriptor, else 0. -/
def sockIf (a : AddrInfo) : Nat := if a.sockResult.isSome then 1 else 0

/-- At every point of the trace, the number of sockets opened so far exceeds
the number closed so far by at most one: at most one descriptor is live. -/
def liveBound (tr : List Ev) : Prop :=
  ∀ n, opens (tr.take n) ≤ closes (tr.take n) + 1

/-! Concrete environments used as witnesses and counterexamples. -/

/-- A reachable candidate: descriptor 3, `::connect` in progress, writable at
once, no pending error. -/
def aGood : AddrInfo :=
  { sockResult := some 3, nonBlockingSetFails := false,
    connectRet := some EINPROGRESS, writableAt := fun _ => true,
    sockoptFails := false, pendingError := 0 }

/-- Like `aGood` but `fcntl(F_SETFL, O_NONBLOCK)` fails. -/
def aNbFail : AddrInfo :=
  { sockResult := some 3, nonBlockingSetFails := true,
    connectRet := some EINPROGRESS, writableAt := fun _ => true,
    sockoptFails := false, pendingError := 0 }

/-- A candidate whose `::connect` fails immediately with `ECONNREFUSED`
(111): descriptor 7. -/
def aRefused : AddrInfo :=
  { sockResult := some 7, nonBlockingSetFails := false,
    connectRet := some 111, writableAt := fun _ => false,
    sockoptFails := false, pendingError := 0 }

/-- A second immediately-refused candidate: descriptor 8, `ETIMEDOUT` (110). -/
def aRefused2 : AddrInfo :=
  { sockResult := some 8, nonBlockingSetFails := false,
    connectRet := some 110, writableAt := fun _ => false,
    sockoptFails := false, pendingError := 0 }

/-- A candidate for which `socket` itself fails. -/
def aNoSock : AddrInfo :=
  { sockResult := none, nonBlockingSetFails := false,
    connectRet := none, writableAt := fun _ => false,
    sockoptFails := false, pendingError := 0 }

/-- An in-progress, never-writable candidate: descriptor 3. -/
def aSlow : AddrInfo :=
  { sockResult := some 3, nonBlockingSetFails := false,
    connectRet := some EINPROGRESS, writableAt := fun _ => false,
    sockoptFails := false, pendingError := 0 }

/-- An in-progress, never-writable candidate: descriptor 4. -/
def aSlow2 : AddrInfo :=
  { sockResult := some 4, nonBlockingSetFails := false,
    connectRet := some EINPROGRESS, writableAt := fun _ => false,
    sockoptFails := false, pendingError := 0 }

end SocketConnect

namespace SocketConnect

/-! ### Lemmas about the polling loop -/

/-- The loop opens no socket, performs no configuration step, and closes
exactly one socket unless it succeeds (in which case it closes none). -/
lemma connectLoop_counts (a : AddrInfo) (fd : Nat) (cancel : Nat → Bool)
    (msg : ErrMsg) : ∀ r i t,
    opens (connectLoop a fd cancel msg r i t).trace = 0
    ∧ (connectLoop a fd cancel msg r i t).trace.countP isCfgEv = 0
    ∧ closes (connectLoop a fd cancel msg r i t).trace
        = (if (connectLoop a fd cancel msg r i t).success then 0 else 1) := by
  intro r
  induction r with
  | zero =>
    intro i t
    simp [connectLoop, opens, closes, List.countP_cons, isOpenEv, isCloseEv, isCfgEv]
  | succ r ih =>
    intro i t
    simp only [connectLoop]
    by_cases hc : cancel t
    · simp [hc, opens, closes, List.countP_cons, isOpenEv, isCloseEv, isCfgEv]
    · by_cases hw : a.writableAt i = false
      · obtain ⟨h1, h2, h3⟩ := ih (i + 1) (t + 1)
        simp [hc, hw, opens, closes, List.countP_cons, isOpenEv, isCloseEv, isCfgEv] at h1 h2 h3 ⊢
        exact ⟨h1, h2, h3⟩
      · by_cases hs : a.sockoptFails ∨ (if a.sockoptFails then (-1 : Int) else a.pendingError) ≠ 0
        · simp [hc, hw, hs, opens, closes, List.countP_cons, isOpenEv, isCloseEv, isCfgEv]
        · simp [hc, hw, hs, opens, closes, List.countP_cons, isOpenEv, isCloseEv, isCfgEv]

/-- The loop's `sockfd` is the descriptor on success and `-1` otherwise. -/
lemma connectLoop_sockfd (a : AddrInfo) (fd : Nat) (cancel : Nat → Bool)
    (msg : ErrMsg) : ∀ r i t,
    (connectLoop a fd cancel msg r i t).sockfd
      = (if (connectLoop a fd cancel msg r i t).success then Int.ofNat fd else -1) := by
  intro r
  induction r with
  | zero => intro i t; simp [connectLoop]
  | succ r ih =>
    intro i t
    simp only [connectLoop]
    by_cases hc : cancel t
    · simp [hc]
    · by_cases hw : a.writableAt i = false
      · simpa [hc, hw] using ih (i + 1) (t + 1)
      · by_cases hs : a.sockoptFails ∨ (if a.sockoptFails then (-1 : Int) else a.pendingError) ≠ 0
        · simp [hc, hw, hs]
        · simp [hc, hw, hs]

/-- Under never-true cancellation signals, the loop's result does not depend
on the signal, the incoming message (except through a successful exit, which
keeps it), or the poll counter. -/
lemma connectLoop_noCancel_eq (a : AddrInfo) (fd : Nat)
    {cancel cancelB : Nat → Bool}
    (hc : ∀ s, cancel s = false) (hcB : ∀ s, cancelB s = false)
    (msg msgB : ErrMsg) : ∀ r i t tB,
    (connectLoop a fd cancel msg r i t).success
        = (connectLoop a fd cancelB msgB r i tB).success
    ∧ (connectLoop a fd cancel msg r i t).trace
        = (connectLoop a fd cancelB msgB r i tB).trace
    ∧ (connectLoop a fd cancel msg r i t).sockfd
        = (connectLoop a fd cancelB msgB r i tB).sockfd
    ∧ ((connectLoop a fd cancel msg r i t).success = false →
        (connectLoop a fd cancel msg r i t).errMsg
          = (connectLoop a fd cancelB msgB r i tB).errMsg) := by
  intro r
  induction r with
  | zero => intro i t tB; simp [connectLoop]
  | succ r ih =>
    intro i t tB
    simp only [connectLoop, hc, hcB, if_false, Bool.false_eq_true]
    by_cases hw : a.writableAt i = false
    · obtain ⟨h1, h2, h3, h4⟩ := ih (i + 1) (t + 1) (tB + 1)
      simp only [hw, if_true, eq_self_iff_true, if_pos]
      exact ⟨h1, by simp [h2], h3, fun h => h4 (by simpa using h)⟩
    · by_cases hs : a.sockoptFails ∨ (if a.sockoptFails then (-1 : Int) else a.pendingError) ≠ 0
      · simp [hw, hs]
      · simp [hw, hs]

/-! ### Lemmas about a single candidate attempt -/

/-- An attempt opens exactly one socket when `socket` succeeds, none
otherwise. -/
lemma connectToAddress_opens (a : AddrInfo) (cancel : Nat → Bool)
    (msg : ErrMsg) (t : Nat) :
    opens (connectToAddress a cancel msg t).trace = sockIf a := by
  rcases ha : a.sockResult with _ | fd
  · simp [connectToAddress, ha, opens, sockIf]
  · rcases hcr : a.connectRet with _ | e
    · obtain ⟨h1, _, _⟩ := connectLoop_counts a fd cancel msg maxRetries 0 t
      simp [connectToAddress, ha, hcr, opens, configure, List.countP_cons,
        List.countP_append, isOpenEv, sockIf] at h1 ⊢
      exact h1
    · by_cases he : e = EINPROGRESS
      · obtain ⟨h1, _, _⟩ := connectLoop_counts a fd cancel msg maxRetries 0 t
        simp [connectToAddress, ha, hcr, he, opens, configure, List.countP_cons,
          List.countP_append, isOpenEv, sockIf] at h1 ⊢
        exact h1
      · simp [connectToAddress, ha, hcr, he, opens, configure, List.countP_cons,
          List.countP_append, isOpenEv, sockIf]

/-- An attempt closes its socket exactly on the failure paths: one close when
`socket` succeeded and the attempt failed, none otherwise. -/
lemma connectToAddress_closes (a : AddrInfo) (cancel : Nat → Bool)
    (msg : ErrMsg) (t : Nat) :
    closes (connectToAddress a cancel msg t).trace
      = (if (connectToAddress a cancel msg t).success then 0 else sockIf a) := by
  rcases ha : a.sockResult with _ | fd
  · simp [connectToAddress, ha, closes, sockIf]
  · rcases hcr : a.connectRet with _ | e
    · obtain ⟨_, _, h3⟩ := connectLoop_counts a fd cancel msg maxRetries 0 t
      simp [connectToAddress, ha, hcr, closes, configure, List.countP_cons,
        List.countP_append, isCloseEv, sockIf] at h3 ⊢
      rw [h3]
    · by_cases he : e = EINPROGRESS
      · obtain ⟨_, _, h3⟩ := connectLoop_counts a fd cancel msg maxRetries 0 t
        simp [connectToAddress, ha, hcr, he, closes, configure, List.countP_cons,
          List.countP_append, isCloseEv, sockIf] at h3 ⊢
        rw [h3]
      · simp [connectToAddress, ha, hcr, he, closes, configure, List.countP_cons,
          List.countP_append, isCloseEv, sockIf]

/-- A failed attempt leaves `sockfd` at the `-1` it wrote on entry. -/
lemma connectToAddress_fail_sockfd (a : AddrInfo) (cancel : Nat → Bool)
    (msg : ErrMsg) (t : Nat)
    (h : (connectToAddress a cancel msg t).success = false) :
    (connectToAddress a cancel msg t).sockfd = -1 := by
  rcases ha : a.sockResult with _ | fd
  · simp [connectToAddress, ha]
  · rcases hcr : a.connectRet with _ | e
    · have hfd := connectLoop_sockfd a fd cancel msg maxRetries 0 t
      simp [connectToAddress, ha, hcr] at h ⊢
      simp [hfd, h]
    · by_cases he : e = EINPROGRESS
      · have hfd := connectLoop_sockfd a fd cancel msg maxRetries 0 t
        simp [connectToAddress, ha, hcr, he] at h ⊢
        simp [hfd, h]
      · simp [connectToAddress, ha, hcr, he]

/-- A successful attempt returns the descriptor created by `socket`. -/
lemma connectToAddress_success_sockfd (a : AddrInfo) (cancel : Nat → Bool)
    (msg : ErrMsg) (t : Nat)
    (h : (connectToAddress a cancel msg t).success = true) :
    ∃ fd : Nat, a.sockResult = some fd
      ∧ (connectToAddress a cancel msg t).sockfd = Int.ofNat fd := by
  rcases ha : a.sockResult with _ | fd
  · simp [connectToAddress, ha] at h
  · rcases hcr : a.connectRet with _ | e
    · have hfd := connectLoop_sockfd a fd cancel msg maxRetries 0 t
      simp [connectToAddress, ha, hcr] at h ⊢
      simp [hfd, h]
    · by_cases he : e = EINPROGRESS
      · have hfd := connectLoop_sockfd a fd cancel msg maxRetries 0 t
        simp [connectToAddress, ha, hcr, he] at h ⊢
        simp [hfd, h]
      · simp [connectToAddress, ha, hcr, he] at h

/-- Without cancellation, an attempt's observable outcome does not depend on
the cancellation stream, the incoming message (on failure), or the poll
counter: it coincides with the canonical run defining `reachable`,
`attemptTrace`, `attemptFd` and `attemptMsg`. -/
lemma connectToAddress_noCancel (a : AddrInfo) {cancel : Nat → Bool}
    (hc : ∀ s, cancel s = false) (msg : ErrMsg) (t : Nat) :
    (connectToAddress a cancel msg t).success = reachable a
    ∧ (connectToAddress a cancel msg t).trace = attemptTrace a
    ∧ (connectToAddress a cancel msg t).sockfd = attemptFd a
    ∧ (reachable a = false →
        (connectToAddress a cancel msg t).errMsg = attemptMsg a) := by
  unfold reachable attemptTrace attemptFd attemptMsg
  rcases ha : a.sockResult with _ | fd
  · simp [connectToAddress, ha]
  · have hcN : ∀ s, cancelNone s = false := fun s => rfl
    rcases hcr : a.connectRet with _ | e
    · obtain ⟨h1, h2, h3, h4⟩ :=
        connectLoop_noCancel_eq a fd hc hcN msg .noMsg maxRetries 0 t 0
      simp [connectToAddress, ha, hcr, h1, h2, h3]
      exact fun h => h4 (h1.trans h)
    · by_cases he : e = EINPROGRESS
      · obtain ⟨h1, h2, h3, h4⟩ :=
          connectLoop_noCancel_eq a fd hc hcN msg .noMsg maxRetries 0 t 0
        simp [connectToAddress, ha, hcr, he, h1, h2, h3]
        exact fun h => h4 (h1.trans h)
      · simp [connectToAddress, ha, hcr, he]

/-- With the cancellation signal raised, an iteration of the loop closes the
socket and returns `Cancelled` before performing any readiness wait. -/
lemma connectLoop_cancelled (a : AddrInfo) (fd : Nat) (cancel : Nat → Bool)
    (msg : ErrMsg) (r i t : Nat) (hc : cancel t = true) :
    connectLoop a fd cancel msg (r + 1) i t
      = { success := false, sockfd := -1, errMsg := .cancelled,
          trace := [.closeSock fd], tEnd := t + 1 } := by
  simp [connectLoop, hc]

/-- Under a permanently raised cancellation signal, every attempt fails. -/
lemma connectToAddress_cancelTrue (a : AddrInfo) {cancel : Nat → Bool}
    (hc : ∀ s, cancel s = true) (msg : ErrMsg) (t : Nat) :
    (connectToAddress a cancel msg t).success = false := by
  have hm : maxRetries = 1199 + 1 := by decide
  rcases ha : a.sockResult with _ | fd
  · simp [connectToAddress, ha]
  · rcases hcr : a.connectRet with _ | e
    · simp [connectToAddress, ha, hcr, hm,
        connectLoop_cancelled a fd cancel msg 1199 0 t (hc t)]
    · by_cases he : e = EINPROGRESS
      · simp [connectToAddress, ha, hcr, he, hm,
          connectLoop_cancelled a fd cancel msg 1199 0 t (hc t)]
      · simp [connectToAddress, ha, hcr, he]

/-- A never-writable, never-cancelled run of the loop performs one readiness
wait per remaining iteration, then closes the socket and times out. -/
lemma connectLoop_timeout (a : AddrInfo) (fd : Nat) (cancel : Nat → Bool)
    (msg : ErrMsg) (hw : ∀ i, a.writableAt i = false)
    (hc : ∀ s, cancel s = false) : ∀ r i t,
    connectLoop a fd cancel msg r i t
      = { success := false, sockfd := -1, errMsg := .timedOut,
          trace := List.replicate r (.selectWait fd) ++ [.closeSock fd],
          tEnd := t + r } := by
  intro r
  induction r with
  | zero => intro i t; simp [connectLoop]
  | succ r ih =>
    intro i t
    simp only [connectLoop, hc, hw, if_false, Bool.false_eq_true]
    rw [ih (i + 1) (t + 1)]
    simp [List.replicate_succ, Outcome.mk.injEq]
    omega

/-! ### Lemmas about the candidate loop of connect -/

/-- A trace that opens at most one socket keeps at most one live. -/
lemma liveBound_of_opens_le {tr : List Ev} (h : opens tr ≤ 1) : liveBound tr := by
  intro n
  have hs := List.Sublist.countP_le (p := isOpenEv) (List.take_sublist n tr)
  simp only [opens, closes] at *
  omega

/-- Appending after a balanced trace preserves the one-live-socket bound. -/
lemma liveBound_append {tr1 tr2 : List Ev} (hbal : opens tr1 = closes tr1)
    (h1 : liveBound tr1) (h2 : liveBound tr2) : liveBound (tr1 ++ tr2) := by
  intro n
  rw [List.take_append_eq_append_take]
  by_cases hn : n ≤ tr1.length
  · have hz : n - tr1.length = 0 := Nat.sub_eq_zero_of_le hn
    simpa [hz] using h1 n
  · have hfull : tr1.take n = tr1 := List.take_of_length_le (by omega)
    have hb := h2 (n - tr1.length)
    simp only [hfull, opens, closes, List.countP_append] at *
    omega

/-- Running `connect` over a candidate list: `-1` is returned exactly on failure, a
`socket`-created descriptor exactly on success. -/
lemma connectList_sockfd (cancel : Nat → Bool) : ∀ (addrs : List AddrInfo)
    (msg : ErrMsg) (t : Nat),
    ((connectList cancel addrs msg t).success = false →
      (connectList cancel addrs msg t).sockfd = -1)
    ∧ ((connectList cancel addrs msg t).success = true →
      ∃ fd : Nat, (connectList cancel addrs msg t).sockfd = Int.ofNat fd) := by
  intro addrs
  induction addrs with
  | nil => intro msg t; simp [connectList]
  | cons a rest ih =>
    intro msg t
    simp only [connectList]
    by_cases hs : (connectToAddress a cancel msg t).success
    · obtain ⟨fd, _, hfd⟩ := connectToAddress_success_sockfd a cancel msg t hs
      simp [hs]
      exact ⟨fd, hfd⟩
    · obtain ⟨ih1, ih2⟩ := ih (connectToAddress a cancel msg t).errMsg
        (connectToAddress a cancel msg t).tEnd
      simp [hs]
      exact ⟨ih1, ih2⟩

/-- Running `connect` over a candidate list: the trace keeps at most one live socket,
is balanced on failure, and has exactly one unmatched open on success. -/
lemma connectList_counts (cancel : Nat → Bool) : ∀ (addrs : List AddrInfo)
    (msg : ErrMsg) (t : Nat),
    liveBound (connectList cancel addrs msg t).trace
    ∧ ((connectList cancel addrs msg t).success = false →
      opens (connectList cancel addrs msg t).trace
        = closes (connectList cancel addrs msg t).trace)
    ∧ ((connectList cancel addrs msg t).success = true →
      opens (connectList cancel addrs msg t).trace
        = closes (connectList cancel addrs msg t).trace + 1) := by
  intro addrs
  induction addrs with
  | nil =>
    intro msg t
    refine ⟨fun n => ?_, fun _ => ?_, fun h => ?_⟩ <;>
      simp [connectList, opens, closes] at *
  | cons a rest ih =>
    intro msg t
    have hop := connectToAddress_opens a cancel msg t
    have hcl := connectToAddress_closes a cancel msg t
    have hle : opens (connectToAddress a cancel msg t).trace ≤ 1 := by
      rw [hop]; unfold sockIf; split <;> omega
    simp only [connectList]
    by_cases hs : (connectToAddress a cancel msg t).success
    · -- first success: trace is the attempt's trace, one unmatched open
      obtain ⟨fd, hfd, _⟩ := connectToAddress_success_sockfd a cancel msg t hs
      have h1 : sockIf a = 1 := by unfold sockIf; simp [hfd]
      simp only [hs, if_true]
      refine ⟨liveBound_of_opens_le hle, fun h => by simp at h, fun _ => ?_⟩
      rw [hop, hcl, if_pos hs, h1]
    · obtain ⟨ihL, ihF, ihS⟩ := ih (connectToAddress a cancel msg t).errMsg
        (connectToAddress a cancel msg t).tEnd
      have hbal : opens (connectToAddress a cancel msg t).trace
          = closes (connectToAddress a cancel msg t).trace := by
        rw [hop, hcl, if_neg hs]
      simp only [hs, Bool.false_eq_true, if_false]
      refine ⟨?_, fun h => ?_, fun h => ?_⟩
      · exact liveBound_append hbal (liveBound_of_opens_le hle) ihL
      · simp only [opens, closes, List.countP_append] at *
        have := ihF (by simpa using h)
        omega
      · simp only [opens, closes, List.countP_append] at *
        have := ihS (by simpa using h)
        omega

/-- Under a permanently raised cancellation signal, the candidate loop still
attempts every candidate: it fails overall, returns `-1`, and opens one
socket per candidate whose `socket` call succeeds. -/
lemma connectList_cancelTrue {cancel : Nat → Bool} (hc : ∀ s, cancel s = true) :
    ∀ (addrs : List AddrInfo) (msg : ErrMsg) (t : Nat),
    (connectList cancel addrs msg t).success = false
    ∧ (connectList cancel addrs msg t).sockfd = -1
    ∧ opens (connectList cancel addrs msg t).trace
        = addrs.countP (fun a => a.sockResult.isSome) := by
  intro addrs
  induction addrs with
  | nil => intro msg t; simp [connectList, opens]
  | cons a rest ih =>
    intro msg t
    have hs := connectToAddress_cancelTrue a hc msg t
    have hop := connectToAddress_opens a cancel msg t
    obtain ⟨ih1, ih2, ih3⟩ := ih (connectToAddress a cancel msg t).errMsg
      (connectToAddress a cancel msg t).tEnd
    simp only [connectList, hs, Bool.false_eq_true, if_false]
    refine ⟨ih1, ih2, ?_⟩
    simp only [opens, List.countP_append, List.countP_cons] at *
    rw [ih3, hop]
    unfold sockIf
    split <;> omega

/-- Without cancellation, if no candidate is reachable the loop fails after
attempting all of them, producing the concatenation of all attempt traces and
keeping the message of the last attempt. -/
lemma connectList_noCancel_allFail {cancel : Nat → Bool}
    (hc : ∀ s, cancel s = false) : ∀ (addrs : List AddrInfo) (msg : ErrMsg)
    (t : Nat), (∀ a ∈ addrs, reachable a = false) →
    (connectList cancel addrs msg t).success = false
    ∧ (connectList cancel addrs msg t).sockfd = -1
    ∧ (connectList cancel addrs msg t).trace = traceCat addrs
    ∧ (addrs = [] → (connectList cancel addrs msg t).errMsg = msg)
    ∧ (∀ last, addrs.getLast? = some last →
      (connectList cancel addrs msg t).errMsg = attemptMsg last) := by
  intro addrs
  induction addrs with
  | nil =>
    intro msg t _
    simp [connectList, traceCat]
  | cons a rest ih =>
    intro msg t hu
    have hra : reachable a = false := hu a (List.mem_cons_self a rest)
    obtain ⟨h1, h2, h3, h4⟩ := connectToAddress_noCancel a hc msg t
    have hs : (connectToAddress a cancel msg t).success = false := by
      rw [h1, hra]
    obtain ⟨ih1, ih2, ih3, ih4, ih5⟩ := ih (connectToAddress a cancel msg t).errMsg
      (connectToAddress a cancel msg t).tEnd (fun x hx => hu x (List.mem_cons_of_mem a hx))
    simp only [connectList, hs, Bool.false_eq_true, if_false]
    refine ⟨ih1, ih2, ?_, fun h => by simp at h, ?_⟩
    · rw [ih3, h2]
      simp [traceCat]
    · intro last hlast
      rcases rest with _ | ⟨b, rest2⟩
      · simp at hlast
        subst hlast
        rw [ih4 rfl, h4 hra]
      · rw [List.getLast?_cons_cons] at hlast
        exact ih5 last hlast

/-- Without cancellation, if some candidate is reachable the loop succeeds at
the first reachable one: the overall `sockfd` is that attempt's descriptor
and the trace is exactly the attempts up to and including it — candidates
after it contribute no event at all. -/
lemma connectList_noCancel_firstSuccess {cancel : Nat → Bool}
    (hc : ∀ s, cancel s = false) : ∀ (addrs : List AddrInfo) (msg : ErrMsg)
    (t : Nat), addrs.any reachable = true →
    ∃ pre first rest, addrs = pre ++ first :: rest
      ∧ (∀ a ∈ pre, reachable a = false)
      ∧ reachable first = true
      ∧ (connectList cancel addrs msg t).success = true
      ∧ (connectList cancel addrs msg t).sockfd = attemptFd first
      ∧ (connectList cancel addrs msg t).trace = traceCat pre ++ attemptTrace first := by
  intro addrs
  induction addrs with
  | nil => intro msg t h; simp at h
  | cons a rest ih =>
    intro msg t hr
    obtain ⟨h1, h2, h3, _⟩ := connectToAddress_noCancel a hc msg t
    by_cases hra : reachable a = true
    · have hs : (connectToAddress a cancel msg t).success = true := by rw [h1, hra]
      refine ⟨[], a, rest, by simp, by simp, hra, ?_, ?_, ?_⟩ <;>
        simp only [connectList, hs, if_true] <;>
        simp [h2, h3, traceCat]
    · have hra2 : reachable a = false := by simpa using hra
      have hs : (connectToAddress a cancel msg t).success = false := by
        rw [h1, hra2]
      have hr2 : rest.any reachable = true := by
        rcases List.any_eq_true.mp hr with ⟨x, hx, hrx⟩
        rcases List.mem_cons.mp hx with rfl | hx2
        · rw [hrx] at hra2; cases hra2
        · exact List.any_eq_true.mpr ⟨x, hx2, hrx⟩
      obtain ⟨pre, first, rest2, heq, hpre, hfirst, hsR, hfdR, htrR⟩ :=
        ih (connectToAddress a cancel msg t).errMsg
          (connectToAddress a cancel msg t).tEnd hr2
      refine ⟨a :: pre, first, rest2, by rw [heq]; simp, ?_, hfirst, ?_, ?_, ?_⟩
      · intro x hx
        rcases List.mem_cons.mp hx with rfl | hx2
        · exact hra2
        · exact hpre x hx2
      · simp only [connectList, hs, Bool.false_eq_true, if_false]
        exact hsR
      · simp only [connectList, hs, Bool.false_eq_true, if_false]
        exact hfdR
      · simp only [connectList, hs, Bool.false_eq_true, if_false]
        rw [htrR, h2]
        simp [traceCat]

/-- The loop reads only `writableAt`, `sockoptFails` and `pendingError` from
the candidate record; in particular it never reads the result of the
non-blocking `fcntl` call. -/
lemma connectLoop_irrel (s sB : Option Nat) (nb nbB : Bool)
    (cr crB : Option Int) (w : Nat → Bool) (so : Bool) (pe : Int) (fd : Nat)
    (cancel : Nat → Bool) (msg : ErrMsg) : ∀ r i t,
    connectLoop ⟨s, nb, cr, w, so, pe⟩ fd cancel msg r i t
      = connectLoop ⟨sB, nbB, crB, w, so, pe⟩ fd cancel msg r i t := by
  intro r
  induction r with
  | zero => intro i t; simp [connectLoop]
  | succ r ih =>
    intro i t
    simp only [connectLoop]
    rw [ih (i + 1) (t + 1)]

/-- The opens of a concatenation of canonical attempt traces count the
candidates whose `socket` call succeeds. -/
lemma opens_traceCat : ∀ addrs : List AddrInfo,
    opens (traceCat addrs) = addrs.countP (fun a => a.sockResult.isSome) := by
  intro addrs
  induction addrs with
  | nil => simp [traceCat, opens]
  | cons a rest ih =>
    have hop := connectToAddress_opens a cancelNone .noMsg 0
    simp only [traceCat, opens, List.countP_append, List.countP_cons] at *
    rw [ih]
    unfold attemptTrace at *
    rw [hop]
    unfold sockIf
    split <;> omega

/-! ### The claims -/

/-- An attempt whose `socket` call yields a descriptor records its open. -/
lemma connectToAddress_open_mem (a : AddrInfo) (cancel : Nat → Bool)
    (msg : ErrMsg) (t : Nat) (fd : Nat) (hs : a.sockResult = some fd) :
    Ev.openSock fd ∈ (connectToAddress a cancel msg t).trace := by
  rcases hcr : a.connectRet with _ | e
  · simp [connectToAddress, hs, hcr]
  · by_cases he : e = EINPROGRESS <;> simp [connectToAddress, hs, hcr, he]

/-- The candidate loop run on a non-empty list opens the head's socket
whenever the head's `socket` call yields a descriptor. -/
lemma connectList_cons_open_mem (b : AddrInfo) (rest2 : List AddrInfo)
    (cancel : Nat → Bool) (msg : ErrMsg) (t : Nat) (fd : Nat)
    (hs : b.sockResult = some fd) :
    Ev.openSock fd ∈ (connectList cancel (b :: rest2) msg t).trace := by
  have hmem := connectToAddress_open_mem b cancel msg t fd hs
  simp only [connectList]
  by_cases hb : (connectToAddress b cancel msg t).success
  · simpa [hb] using hmem
  · simp only [hb, Bool.false_eq_true, if_false]
    exact List.mem_append_left _ hmem

/-- Unfolding of the candidate loop at a failed head attempt: the loop
continues with the remaining candidates, threading the attempt's message and
poll counter and prefixing its trace. -/
lemma connectList_cons_fail (a : AddrInfo) (rest : List AddrInfo)
    (msg : ErrMsg) (t : Nat) (cancel : Nat → Bool)
    (h1 : (connectToAddress a cancel msg t).success = false) :
    connectList cancel (a :: rest) msg t
      = { success := (connectList cancel rest (connectToAddress a cancel msg t).errMsg
            (connectToAddress a cancel msg t).tEnd).success,
          sockfd := (connectList cancel rest (connectToAddress a cancel msg t).errMsg
            (connectToAddress a cancel msg t).tEnd).sockfd,
          errMsg := (connectList cancel rest (connectToAddress a cancel msg t).errMsg
            (connectToAddress a cancel msg t).tEnd).errMsg,
          trace := (connectToAddress a cancel msg t).trace
            ++ (connectList cancel rest (connectToAddress a cancel msg t).errMsg
              (connectToAddress a cancel msg t).tEnd).trace,
          tEnd := (connectList cancel rest (connectToAddress a cancel msg t).errMsg
            (connectToAddress a cancel msg t).tEnd).tEnd } := by
  simp only [connectList, h1, Bool.false_eq_true, if_false]

/-- The candidate loop on the empty list returns the threaded state. -/
lemma connectList_nil (msg : ErrMsg) (t : Nat) (cancel : Nat → Bool) :
    connectList cancel [] msg t
      = { success := false, sockfd := -1, errMsg := msg, trace := [], tEnd := t } := by
  simp only [connectList]

/-- Closed form of an attempt that issues an in-progress connect and never
becomes writable or cancelled: it times out after `maxRetries` waits. -/
lemma slow_attempt_timeout (a : AddrInfo) (fd : Nat) (hs : a.sockResult = some fd)
    (hcr : a.connectRet = some EINPROGRESS) (hw : ∀ i, a.writableAt i = false)
    (cancel : Nat → Bool) (hc : ∀ s, cancel s = false) (msg : ErrMsg) (t : Nat) :
    connectToAddress a cancel msg t
      = { success := false, sockfd := -1, errMsg := .timedOut,
          trace := .openSock fd :: configure fd ++ .connectCall fd ::
            (List.replicate maxRetries (.selectWait fd) ++ [.closeSock fd]),
          tEnd := t + maxRetries } := by
  have hloop := connectLoop_timeout a fd cancel msg hw hc maxRetries 0 t
  simp [connectToAddress, hs, hcr, hloop]

/-- C1, counterexample to the claim as stated, in both of its cases.
Cancellation case: with the signal permanently raised and two resolved
candidates, the first attempt terminates with "Cancelled", yet `connect`
still attempts the second candidate and opens a socket for it (descriptor
4) instead of terminating the whole call.  Timeout case: with the signal
never raised and two never-writable candidates, the first attempt times out,
yet `connect` again attempts the second candidate and opens its socket. -/
theorem c1_counterexample :
    ((connectToAddress aSlow (fun _ => true) .noMsg 0).errMsg = .cancelled
      ∧ (connectToAddress aSlow (fun _ => true) .noMsg 0).success = false
      ∧ Ev.openSock 4 ∈ (connect (some [aSlow, aSlow2]) .noMsg (fun _ => true) .noMsg 0).trace
      ∧ opens (connect (some [aSlow, aSlow2]) .noMsg (fun _ => true) .noMsg 0).trace = 2)
    ∧ ((connectToAddress aSlow cancelNone .noMsg 0).errMsg = .timedOut
      ∧ (connectToAddress aSlow cancelNone .noMsg 0).success = false
      ∧ Ev.openSock 4 ∈ (connect (some [aSlow, aSlow2]) .noMsg cancelNone .noMsg 0).trace
      ∧ opens (connect (some [aSlow, aSlow2]) .noMsg cancelNone .noMsg 0).trace = 2) := by
  constructor
  · exact ⟨by decide, by decide, by decide, by decide⟩
  · have hA := slow_attempt_timeout aSlow 3 rfl rfl (fun _ => rfl) cancelNone
      (fun _ => rfl) ErrMsg.noMsg 0
    have hsA : (connectToAddress aSlow cancelNone ErrMsg.noMsg 0).success = false := by
      rw [hA]
    have hB := slow_attempt_timeout aSlow2 4 rfl rfl (fun _ => rfl) cancelNone
      (fun _ => rfl)
      (connectToAddress aSlow cancelNone ErrMsg.noMsg 0).errMsg
      (connectToAddress aSlow cancelNone ErrMsg.noMsg 0).tEnd
    have hsB : (connectToAddress aSlow2 cancelNone
        (connectToAddress aSlow cancelNone ErrMsg.noMsg 0).errMsg
        (connectToAddress aSlow cancelNone ErrMsg.noMsg 0).tEnd).success = false := by
      rw [hB]
    have hstep : connect (some [aSlow, aSlow2]) ErrMsg.noMsg cancelNone ErrMsg.noMsg 0
        = connectList cancelNone [aSlow, aSlow2] ErrMsg.noMsg 0 := rfl
    have htr : (connect (some [aSlow, aSlow2]) ErrMsg.noMsg cancelNone ErrMsg.noMsg 0).trace
        = (connectToAddress aSlow cancelNone ErrMsg.noMsg 0).trace
          ++ ((connectToAddress aSlow2 cancelNone
              (connectToAddress aSlow cancelNone ErrMsg.noMsg 0).errMsg
              (connectToAddress aSlow cancelNone ErrMsg.noMsg 0).tEnd).trace ++ []) := by
      rw [hstep, connectList_cons_fail aSlow [aSlow2] ErrMsg.noMsg 0 cancelNone hsA,
        connectList_cons_fail aSlow2 []
          (connectToAddress aSlow cancelNone ErrMsg.noMsg 0).errMsg
          (connectToAddress aSlow cancelNone ErrMsg.noMsg 0).tEnd cancelNone hsB,
        connectList_nil]
    refine ⟨by rw [hA], hsA, ?_, ?_⟩
    · rw [htr]
      exact List.mem_append_right _
        (List.mem_append_left _
          (connectToAddress_open_mem aSlow2 cancelNone
            (connectToAddress aSlow cancelNone ErrMsg.noMsg 0).errMsg
            (connectToAddress aSlow cancelNone ErrMsg.noMsg 0).tEnd 4 rfl))
    · have h1 := connectToAddress_opens aSlow cancelNone ErrMsg.noMsg 0
      have h2 := connectToAddress_opens aSlow2 cancelNone
        (connectToAddress aSlow cancelNone ErrMsg.noMsg 0).errMsg
        (connectToAddress aSlow cancelNone ErrMsg.noMsg 0).tEnd
      simp only [opens] at h1 h2
      rw [opens, htr, List.countP_append, List.countP_append, List.countP_nil, h1, h2]
      decide

/-- C1 (amended): if a candidate's attempt terminates because the
cancellation signal became true or because the attempt timed out, that
attempt closes the one socket it opened, but the whole call does not
terminate with that outcome and the remaining candidates are not skipped:
`connect` continues the failover iteration with the remaining candidates
exactly as after any other failed attempt — in particular a socket is opened
for the next remaining candidate whose `socket` call succeeds — and whenever
the call then fails overall, every socket it opened has been closed. -/
theorem c1_no_short_circuit (a : AddrInfo) (rest : List AddrInfo)
    (resolveMsg msg : ErrMsg) (t : Nat) (cancel : Nat → Bool)
    (h1 : (connectToAddress a cancel msg t).success = false)
    (h2 : (connectToAddress a cancel msg t).errMsg = ErrMsg.cancelled
      ∨ (connectToAddress a cancel msg t).errMsg = ErrMsg.timedOut) :
    (opens (connectToAddress a cancel msg t).trace = 1
      ∧ closes (connectToAddress a cancel msg t).trace = 1)
    ∧ connect (some (a :: rest)) resolveMsg cancel msg t
        = { success := (connectList cancel rest (connectToAddress a cancel msg t).errMsg
              (connectToAddress a cancel msg t).tEnd).success,
            sockfd := (connectList cancel rest (connectToAddress a cancel msg t).errMsg
              (connectToAddress a cancel msg t).tEnd).sockfd,
            errMsg := (connectList cancel rest (connectToAddress a cancel msg t).errMsg
              (connectToAddress a cancel msg t).tEnd).errMsg,
            trace := (connectToAddress a cancel msg t).trace
              ++ (connectList cancel rest (connectToAddress a cancel msg t).errMsg
                (connectToAddress a cancel msg t).tEnd).trace,
            tEnd := (connectList cancel rest (connectToAddress a cancel msg t).errMsg
              (connectToAddress a cancel msg t).tEnd).tEnd }
    ∧ (∀ b rest2 fd, rest = b :: rest2 → b.sockResult = some fd →
        Ev.openSock fd ∈ (connect (some (a :: rest)) resolveMsg cancel msg t).trace)
    ∧ ((connect (some (a :: rest)) resolveMsg cancel msg t).success = false →
        opens (connect (some (a :: rest)) resolveMsg cancel msg t).trace
          = closes (connect (some (a :: rest)) resolveMsg cancel msg t).trace) := by
  have hsome : a.sockResult.isSome = true := by
    rcases ha : a.sockResult with _ | fd
    · exfalso
      have hmsg : (connectToAddress a cancel msg t).errMsg = ErrMsg.cannotCreateSocket := by
        simp [connectToAddress, ha]
      rcases h2 with h2 | h2 <;> rw [hmsg] at h2 <;> exact ErrMsg.noConfusion h2
    · simp
  have heq : connect (some (a :: rest)) resolveMsg cancel msg t
      = { success := (connectList cancel rest (connectToAddress a cancel msg t).errMsg
            (connectToAddress a cancel msg t).tEnd).success,
          sockfd := (connectList cancel rest (connectToAddress a cancel msg t).errMsg
            (connectToAddress a cancel msg t).tEnd).sockfd,
          errMsg := (connectList cancel rest (connectToAddress a cancel msg t).errMsg
            (connectToAddress a cancel msg t).tEnd).errMsg,
          trace := (connectToAddress a cancel msg t).trace
            ++ (connectList cancel rest (connectToAddress a cancel msg t).errMsg
              (connectToAddress a cancel msg t).tEnd).trace,
          tEnd := (connectList cancel rest (connectToAddress a cancel msg t).errMsg
            (connectToAddress a cancel msg t).tEnd).tEnd } := by
    simp only [connect, connectList, h1, Bool.false_eq_true, if_false]
  refine ⟨⟨?_, ?_⟩, heq, ?_, ?_⟩
  · rw [connectToAddress_opens]
    simp [sockIf, hsome]
  · rw [connectToAddress_closes, if_neg (by simp [h1])]
    simp [sockIf, hsome]
  · intro b rest2 fd hbr hfd
    subst hbr
    rw [heq]
    exact List.mem_append_right _
      (connectList_cons_open_mem b rest2 cancel
        (connectToAddress a cancel msg t).errMsg
        (connectToAddress a cancel msg t).tEnd fd hfd)
  · intro hfail
    have hcc := (connectList_counts cancel (a :: rest) msg t).2.1
      (by simpa [connect] using hfail)
    simpa [connect] using hcc

/-- C1 witness: the amended theorem applied at both outcomes — a first
attempt cancelled by a permanently raised signal, and a first attempt that
times out under a never-raised signal — with two slow candidates; in both
runs a socket is opened for the remaining candidate (descriptor 4). -/
theorem c1_no_short_circuit_witness :
    ((connectToAddress aSlow (fun _ => true) .noMsg 0).success = false
      ∧ (connectToAddress aSlow (fun _ => true) .noMsg 0).errMsg = ErrMsg.cancelled
      ∧ Ev.openSock 4 ∈ (connect (some [aSlow, aSlow2]) .noMsg (fun _ => true) .noMsg 0).trace)
    ∧ ((connectToAddress aSlow cancelNone .noMsg 0).success = false
      ∧ (connectToAddress aSlow cancelNone .noMsg 0).errMsg = ErrMsg.timedOut
      ∧ Ev.openSock 4 ∈ (connect (some [aSlow, aSlow2]) .noMsg cancelNone .noMsg 0).trace) := by
  constructor
  · exact ⟨by decide, by decide,
      (c1_no_short_circuit aSlow [aSlow2] .noMsg .noMsg 0 (fun _ => true)
        (by decide) (Or.inl (by decide))).2.2.1 aSlow2 [] 4 rfl rfl⟩
  · have hA := slow_attempt_timeout aSlow 3 rfl rfl (fun _ => rfl) cancelNone
      (fun _ => rfl) ErrMsg.noMsg 0
    exact ⟨by rw [hA], by rw [hA],
      (c1_no_short_circuit aSlow [aSlow2] .noMsg .noMsg 0 cancelNone
        (by rw [hA]) (Or.inr (by rw [hA]))).2.2.1 aSlow2 [] 4 rfl rfl⟩

/-- C2, counterexample to the claim as stated: a candidate for which the
non-blocking `fcntl` call fails still proceeds into the readiness-polling
loop and its attempt succeeds — the attempt does not fail. -/
theorem c2_counterexample :
    aNbFail.nonBlockingSetFails = true
    ∧ (connectToAddress aNbFail cancelNone .noMsg 0).success = true
    ∧ (connectToAddress aNbFail cancelNone .noMsg 0).sockfd = 3 := by
  decide

/-- C2 (amended): setting non-blocking mode is best-effort, not mandatory:
`configure` discards the result of the `fcntl` call, so the outcome of a
candidate attempt is entirely independent of whether non-blocking mode could
be set. -/
theorem c2_nonblocking_best_effort (a : AddrInfo) (b : Bool)
    (cancel : Nat → Bool) (msg : ErrMsg) (t : Nat) :
    connectToAddress { a with nonBlockingSetFails := b } cancel msg t
      = connectToAddress a cancel msg t := by
  rcases a with ⟨s, nb, cr, w, so, pe⟩
  rcases s with _ | fd
  · rfl
  · rcases cr with _ | e
    · simp only [connectToAddress]
      rw [connectLoop_irrel (some fd) (some fd) b nb none none w so pe fd cancel msg
        maxRetries 0 t]
    · by_cases he : e = EINPROGRESS
      · subst he
        simp only [connectToAddress]
        rw [connectLoop_irrel (some fd) (some fd) b nb (some EINPROGRESS)
          (some EINPROGRESS) w so pe fd cancel msg maxRetries 0 t]
      · simp [connectToAddress, he]

/-- C3, counterexample to the claim as stated: on a successful attempt, all
three configuration steps (`TCP_NODELAY`, non-blocking, `SO_NOSIGPIPE`) are
performed before the `::connect` call — not only the non-blocking step — and
no configuration step at all is performed after the connection succeeds. -/
theorem c3_counterexample :
    (connectToAddress aGood cancelNone .noMsg 0).success = true
    ∧ (connectToAddress aGood cancelNone .noMsg 0).trace
        = [.openSock 3, .setNoDelay 3, .setNonBlocking 3, .setNoSigPipe 3,
           .connectCall 3, .selectWait 3]
    ∧ ((connectToAddress aGood cancelNone .noMsg 0).trace.take 5).countP isCfgEv = 3
    ∧ ((connectToAddress aGood cancelNone .noMsg 0).trace.drop 5).countP isCfgEv = 0 := by
  decide

/-- C3 (amended): whenever `socket` yields a descriptor, the full
configuration — disable delayed-ACK coalescing, non-blocking mode, suppress
the abrupt-pipe signal — is applied immediately after socket creation and
before the `::connect` call, and no configuration step is applied afterwards
(in particular none after the attempt succeeds). -/
theorem c3_full_configure_before_connect (a : AddrInfo) (cancel : Nat → Bool)
    (msg : ErrMsg) (t : Nat) (fd : Nat) (hs : a.sockResult = some fd) :
    ∃ rest, (connectToAddress a cancel msg t).trace
        = Ev.openSock fd :: Ev.setNoDelay fd :: Ev.setNonBlocking fd
          :: Ev.setNoSigPipe fd :: Ev.connectCall fd :: rest
      ∧ rest.countP isCfgEv = 0 := by
  rcases hcr : a.connectRet with _ | e
  · obtain ⟨_, h2, _⟩ := connectLoop_counts a fd cancel msg maxRetries 0 t
    exact ⟨(connectLoop a fd cancel msg maxRetries 0 t).trace,
      by simp [connectToAddress, hs, hcr, configure], h2⟩
  · by_cases he : e = EINPROGRESS
    · obtain ⟨_, h2, _⟩ := connectLoop_counts a fd cancel msg maxRetries 0 t
      exact ⟨(connectLoop a fd cancel msg maxRetries 0 t).trace,
        by simp [connectToAddress, hs, hcr, he, configure], h2⟩
    · exact ⟨[.closeSock fd],
        by simp [connectToAddress, hs, hcr, he, configure],
        by simp [isCfgEv]⟩

/-- C3 witness: the amended theorem evaluated on a reachable candidate. -/
theorem c3_full_configure_before_connect_witness :
    aGood.sockResult = some 3
    ∧ ∃ rest, (connectToAddress aGood cancelNone .noMsg 0).trace
        = Ev.openSock 3 :: Ev.setNoDelay 3 :: Ev.setNonBlocking 3
          :: Ev.setNoSigPipe 3 :: Ev.connectCall 3 :: rest
      ∧ rest.countP isCfgEv = 0 :=
  ⟨rfl, c3_full_configure_before_connect aGood cancelNone .noMsg 0 3 rfl⟩

/-- C4: without cancellation, for every resolved candidate sequence with at
least one reachable candidate, `connect` tries candidates strictly in
resolution order, succeeds with the socket of the first reachable candidate,
and produces no event — in particular opens no socket — for any candidate
after it. -/
theorem c4_first_reachable (addrs : List AddrInfo) (resolveMsg msg : ErrMsg)
    (t : Nat) {cancel : Nat → Bool} (hc : ∀ s, cancel s = false)
    (hr : addrs.any reachable = true) :
    ∃ pre first rest,
      addrs = pre ++ first :: rest
      ∧ (∀ a ∈ pre, reachable a = false)
      ∧ reachable first = true
      ∧ (∃ fd : Nat, first.sockResult = some fd ∧ attemptFd first = Int.ofNat fd)
      ∧ (connect (some addrs) resolveMsg cancel msg t).success = true
      ∧ (connect (some addrs) resolveMsg cancel msg t).sockfd = attemptFd first
      ∧ (connect (some addrs) resolveMsg cancel msg t).trace
          = traceCat pre ++ attemptTrace first := by
  obtain ⟨pre, first, rest, heq, hpre, hfirst, hsucc, hfd, htr⟩ :=
    connectList_noCancel_firstSuccess hc addrs msg t hr
  refine ⟨pre, first, rest, heq, hpre, hfirst, ?_, ?_, ?_, ?_⟩
  · obtain ⟨fd, h1, h2⟩ := connectToAddress_success_sockfd first cancelNone .noMsg 0 hfirst
    exact ⟨fd, h1, h2⟩
  · simpa [connect] using hsucc
  · simpa [connect] using hfd
  · simpa [connect] using htr

/-- C4 witness: one unreachable candidate followed by a reachable one. -/
theorem c4_first_reachable_witness :
    ([aRefused, aGood].any reachable = true)
    ∧ ∃ pre first rest,
      [aRefused, aGood] = pre ++ first :: rest
      ∧ (∀ a ∈ pre, reachable a = false)
      ∧ reachable first = true
      ∧ (∃ fd : Nat, first.sockResult = some fd ∧ attemptFd first = Int.ofNat fd)
      ∧ (connect (some [aRefused, aGood]) .noMsg cancelNone .noMsg 0).success = true
      ∧ (connect (some [aRefused, aGood]) .noMsg cancelNone .noMsg 0).sockfd
          = attemptFd first
      ∧ (connect (some [aRefused, aGood]) .noMsg cancelNone .noMsg 0).trace
          = traceCat pre ++ attemptTrace first :=
  ⟨by decide,
    c4_first_reachable [aRefused, aGood] .noMsg .noMsg 0 (fun _ => rfl) (by decide)⟩

/-- C5, counterexample to the claim as stated: a single candidate for which
`socket` itself fails is not reachable, yet zero sockets are opened and
closed, not one per candidate as the claim requires. -/
theorem c5_counterexample :
    reachable aNoSock = false
    ∧ (connect (some [aNoSock]) .noMsg cancelNone .noMsg 0).success = false
    ∧ opens (connect (some [aNoSock]) .noMsg cancelNone .noMsg 0).trace = 0
    ∧ closes (connect (some [aNoSock]) .noMsg cancelNone .noMsg 0).trace = 0
    ∧ [aNoSock].length = 1 := by
  decide

/-- C5 (amended): without cancellation, for every non-empty resolved sequence
in which no candidate is reachable, `connect` fails with `-1` carrying the
failure message of the last attempted candidate (each attempt's message
overwrites the previous one), and the number of sockets opened then closed
equals the number of candidates whose `socket` call succeeded (a candidate
whose socket cannot even be created opens nothing). -/
theorem c5_all_fail_last_message (addrs : List AddrInfo)
    (resolveMsg msg : ErrMsg) (t : Nat) {cancel : Nat → Bool}
    (hc : ∀ s, cancel s = false) (hu : ∀ a ∈ addrs, reachable a = false)
    (hne : addrs ≠ []) :
    (connect (some addrs) resolveMsg cancel msg t).success = false
    ∧ (connect (some addrs) resolveMsg cancel msg t).sockfd = -1
    ∧ (∃ last, addrs.getLast? = some last
        ∧ (connect (some addrs) resolveMsg cancel msg t).errMsg = attemptMsg last)
    ∧ opens (connect (some addrs) resolveMsg cancel msg t).trace
        = addrs.countP (fun a => a.sockResult.isSome)
    ∧ closes (connect (some addrs) resolveMsg cancel msg t).trace
        = addrs.countP (fun a => a.sockResult.isSome) := by
  obtain ⟨h1, h2, h3, _, h5⟩ := connectList_noCancel_allFail hc addrs msg t hu
  have hlast : ∃ last, addrs.getLast? = some last := by
    have := List.getLast?_isSome.mpr hne
    exact Option.isSome_iff_exists.mp this
  obtain ⟨last, hl⟩ := hlast
  have hopens : opens (connectList cancel addrs msg t).trace
      = addrs.countP (fun a => a.sockResult.isSome) := by
    rw [h3, opens_traceCat]
  have hcloses : closes (connectList cancel addrs msg t).trace
      = addrs.countP (fun a => a.sockResult.isSome) := by
    obtain ⟨_, hbal, _⟩ := connectList_counts cancel addrs msg t
    rw [← hbal h1, hopens]
  exact ⟨by simpa [connect] using h1, by simpa [connect] using h2,
    ⟨last, hl, by simpa [connect] using h5 last hl⟩,
    by simpa [connect] using hopens, by simpa [connect] using hcloses⟩

/-- C5 witness: two immediately-refused candidates; the final message is the
second candidate's `strerror(110)`. -/
theorem c5_all_fail_last_message_witness :
    ((∀ a ∈ [aRefused, aRefused2], reachable a = false) ∧ [aRefused, aRefused2] ≠ [])
    ∧ ((connect (some [aRefused, aRefused2]) .noMsg cancelNone .noMsg 0).success = false
      ∧ (connect (some [aRefused, aRefused2]) .noMsg cancelNone .noMsg 0).sockfd = -1
      ∧ (∃ last, [aRefused, aRefused2].getLast? = some last
          ∧ (connect (some [aRefused, aRefused2]) .noMsg cancelNone .noMsg 0).errMsg
              = attemptMsg last)
      ∧ opens (connect (some [aRefused, aRefused2]) .noMsg cancelNone .noMsg 0).trace
          = [aRefused, aRefused2].countP (fun a => a.sockResult.isSome)
      ∧ closes (connect (some [aRefused, aRefused2]) .noMsg cancelNone .noMsg 0).trace
          = [aRefused, aRefused2].countP (fun a => a.sockResult.isSome)) :=
  ⟨⟨by decide, List.cons_ne_nil _ _⟩,
    c5_all_fail_last_message [aRefused, aRefused2] .noMsg .noMsg 0 (fun _ => rfl)
      (by decide) (List.cons_ne_nil _ _)⟩

/-- C6: in a loop iteration where cancellation is down and the readiness wait
reports the socket writable, the pending-error status decides the attempt:
status read ok with pending error 0 returns success with the connected
descriptor and without closing it; a failed status read or a nonzero pending
error closes the socket and fails with the OS error text for the pending
error value the code read (the initial `-1` when the read itself failed). -/
theorem c6_pending_error (a : AddrInfo) (fd : Nat) (cancel : Nat → Bool)
    (msg : ErrMsg) (r i t : Nat) (hc : cancel t = false)
    (hw : a.writableAt i = true) :
    ((a.sockoptFails = false ∧ a.pendingError = 0) →
      connectLoop a fd cancel msg (r + 1) i t
        = { success := true, sockfd := Int.ofNat fd, errMsg := msg,
            trace := [.selectWait fd], tEnd := t + 1 })
    ∧ ((a.sockoptFails = true ∨ (a.sockoptFails = false ∧ a.pendingError ≠ 0)) →
      connectLoop a fd cancel msg (r + 1) i t
        = { success := false, sockfd := -1,
            errMsg := .strerror (if a.sockoptFails then -1 else a.pendingError),
            trace := [.selectWait fd, .closeSock fd], tEnd := t + 1 }) := by
  constructor
  · rintro ⟨h1, h2⟩
    simp [connectLoop, hc, hw, h1, h2]
  · rintro (h1 | ⟨h1, h2⟩)
    · simp [connectLoop, hc, hw, h1]
    · simp [connectLoop, hc, hw, h1, h2]

/-- C6 witness: the success half evaluated on `aGood` (writable at once, no
pending error). -/
theorem c6_pending_error_witness :
    (cancelNone 0 = false ∧ aGood.writableAt 0 = true
      ∧ aGood.sockoptFails = false ∧ aGood.pendingError = 0)
    ∧ connectLoop aGood 3 cancelNone .noMsg (0 + 1) 0 0
        = { success := true, sockfd := Int.ofNat 3, errMsg := .noMsg,
            trace := [.selectWait 3], tEnd := 0 + 1 } :=
  ⟨⟨rfl, rfl, rfl, rfl⟩,
    (c6_pending_error aGood 3 cancelNone .noMsg 0 0 0 rfl rfl).1 ⟨rfl, rfl⟩⟩

/-- C7: in every iteration of the connecting loop the cancellation signal is
polled first: if it is raised when an iteration starts, the socket is closed
and the attempt returns failure with the message "Cancelled" at once, with no
readiness wait in that or any later iteration of the attempt. -/
theorem c7_cancel_checked_first (a : AddrInfo) (fd : Nat)
    (cancel : Nat → Bool) (msg : ErrMsg) (r i t : Nat) (hc : cancel t = true) :
    connectLoop a fd cancel msg (r + 1) i t
      = { success := false, sockfd := -1, errMsg := .cancelled,
          trace := [.closeSock fd], tEnd := t + 1 }
    ∧ (connectLoop a fd cancel msg (r + 1) i t).trace.countP isSelectEv = 0
    ∧ ErrMsg.render .cancelled = "Cancelled" := by
  refine ⟨connectLoop_cancelled a fd cancel msg r i t hc, ?_, rfl⟩
  rw [connectLoop_cancelled a fd cancel msg r i t hc]
  simp [isSelectEv]

/-- C7 witness: a raised signal at the very first iteration. -/
theorem c7_cancel_checked_first_witness :
    ((fun _ : Nat => true) 0 = true)
    ∧ (connectLoop aSlow 3 (fun _ => true) .noMsg (1199 + 1) 0 0
        = { success := false, sockfd := -1, errMsg := .cancelled,
            trace := [.closeSock 3], tEnd := 0 + 1 }
      ∧ (connectLoop aSlow 3 (fun _ => true) .noMsg (1199 + 1) 0 0).trace.countP
          isSelectEv = 0
      ∧ ErrMsg.render .cancelled = "Cancelled") :=
  ⟨rfl, c7_cancel_checked_first aSlow 3 (fun _ => true) .noMsg 1199 0 0 rfl⟩

/-- C8: for a candidate that never becomes writable and is never cancelled,
the connecting loop performs exactly `maxRetries = 60 s / 50 ms = 1200`
iterations — one readiness wait and one cancellation poll each — then closes
the socket and fails with "connect timed out after 60 seconds". -/
theorem c8_timeout_budget (a : AddrInfo) (fd : Nat) (cancel : Nat → Bool)
    (msg : ErrMsg) (t : Nat) (hw : ∀ i, a.writableAt i = false)
    (hc : ∀ s, cancel s = false) :
    maxRetries = 1200
    ∧ maxRetries = 60 * 1000 * 1000 / selectTimeOut
    ∧ connectLoop a fd cancel msg maxRetries 0 t
        = { success := false, sockfd := -1, errMsg := .timedOut,
            trace := List.replicate maxRetries (.selectWait fd) ++ [.closeSock fd],
            tEnd := t + maxRetries }
    ∧ ErrMsg.render .timedOut = "connect timed out after 60 seconds" :=
  ⟨by decide, rfl, connectLoop_timeout a fd cancel msg hw hc maxRetries 0 t, rfl⟩

/-- C8 witness: the never-writable candidate under the never-raised signal. -/
theorem c8_timeout_budget_witness :
    ((∀ i, aSlow.writableAt i = false) ∧ (∀ s, cancelNone s = false))
    ∧ (maxRetries = 1200
      ∧ maxRetries = 60 * 1000 * 1000 / selectTimeOut
      ∧ connectLoop aSlow 3 cancelNone .noMsg maxRetries 0 0
          = { success := false, sockfd := -1, errMsg := .timedOut,
              trace := List.replicate maxRetries (.selectWait 3) ++ [.closeSock 3],
              tEnd := 0 + maxRetries }
      ∧ ErrMsg.render .timedOut = "connect timed out after 60 seconds") :=
  ⟨⟨fun _ => rfl, fun _ => rfl⟩,
    c8_timeout_budget aSlow 3 cancelNone .noMsg 0 (fun _ => rfl) (fun _ => rfl)⟩

/-- C9: throughout any `connect` call at most one socket is live at any
point of the trace; on overall failure every opened socket has been closed,
and on success exactly the returned socket remains open. -/
theorem c9_single_live_socket (resolved : Option (List AddrInfo))
    (resolveMsg : ErrMsg) (cancel : Nat → Bool) (msg : ErrMsg) (t : Nat) :
    liveBound (connect resolved resolveMsg cancel msg t).trace
    ∧ ((connect resolved resolveMsg cancel msg t).success = false →
      opens (connect resolved resolveMsg cancel msg t).trace
        = closes (connect resolved resolveMsg cancel msg t).trace)
    ∧ ((connect resolved resolveMsg cancel msg t).success = true →
      opens (connect resolved resolveMsg cancel msg t).trace
        = closes (connect resolved resolveMsg cancel msg t).trace + 1) := by
  rcases resolved with _ | addrs
  · exact ⟨fun n => by simp [connect, opens, closes],
      fun _ => by simp [connect, opens, closes],
      fun h => by simp [connect] at h⟩
  · simpa [connect] using connectList_counts cancel addrs msg t

/-- C9 witness: a failing run (one refused candidate) is balanced. -/
theorem c9_single_live_socket_witness :
    (connect (some [aRefused]) .noMsg cancelNone .noMsg 0).success = false
    ∧ opens (connect (some [aRefused]) .noMsg cancelNone .noMsg 0).trace
        = closes (connect (some [aRefused]) .noMsg cancelNone .noMsg 0).trace :=
  ⟨by decide,
    (c9_single_live_socket (some [aRefused]) .noMsg cancelNone .noMsg 0).2.1 (by decide)⟩

/-- C10: `connect` returns `-1` exactly when it fails (resolution failure
included) and a `socket`-created non-negative descriptor exactly when some
candidate attempt succeeds; `connectToAddress` leaves its `sockfd`
out-parameter at the `-1` written on entry except in its success branch,
where it stores the created descriptor. -/
theorem c10_return_value (resolved : Option (List AddrInfo))
    (resolveMsg : ErrMsg) (cancel : Nat → Bool) (msg : ErrMsg) (t : Nat) :
    ((connect resolved resolveMsg cancel msg t).sockfd = -1
      ↔ (connect resolved resolveMsg cancel msg t).success = false)
    ∧ ((connect resolved resolveMsg cancel msg t).success = true →
      ∃ fd : Nat, (connect resolved resolveMsg cancel msg t).sockfd = Int.ofNat fd)
    ∧ (resolved = none →
      (connect resolved resolveMsg cancel msg t).success = false
        ∧ (connect resolved resolveMsg cancel msg t).sockfd = -1)
    ∧ (∀ a : AddrInfo,
      ((connectToAddress a cancel msg t).success = false →
        (connectToAddress a cancel msg t).sockfd = -1)
      ∧ ((connectToAddress a cancel msg t).success = true →
        ∃ fd : Nat, a.sockResult = some fd
          ∧ (connectToAddress a cancel msg t).sockfd = Int.ofNat fd)) := by
  have hA : ∀ a : AddrInfo,
      ((connectToAddress a cancel msg t).success = false →
        (connectToAddress a cancel msg t).sockfd = -1)
      ∧ ((connectToAddress a cancel msg t).success = true →
        ∃ fd : Nat, a.sockResult = some fd
          ∧ (connectToAddress a cancel msg t).sockfd = Int.ofNat fd) :=
    fun a => ⟨connectToAddress_fail_sockfd a cancel msg t,
      connectToAddress_success_sockfd a cancel msg t⟩
  rcases resolved with _ | addrs
  · exact ⟨by simp [connect], fun h => by simp [connect] at h,
      fun _ => by simp [connect], hA⟩
  · obtain ⟨hF, hS⟩ := connectList_sockfd cancel addrs msg t
    refine ⟨⟨fun hm1 => ?_, fun hm => ?_⟩, by simpa [connect] using hS,
      fun h => by simp at h, hA⟩
    · cases hs : (connect (some addrs) resolveMsg cancel msg t).success
      · rfl
      · exfalso
        obtain ⟨fd, hfd⟩ := hS (by simpa [connect] using hs)
        have hm1L : (connectList cancel addrs msg t).sockfd = -1 := by
          simpa [connect] using hm1
        rw [hm1L] at hfd
        have h0 : (0 : Int) ≤ Int.ofNat fd := Int.ofNat_nonneg fd
        omega
    · simpa [connect] using hF (by simpa [connect] using hm)

/-- C10 witness: a failed resolution yields `-1`, and a successful single
candidate run yields the created descriptor. -/
theorem c10_return_value_witness :
    ((connect none .noMsg cancelNone .noMsg 0).success = false
      ∧ (connect none .noMsg cancelNone .noMsg 0).sockfd = -1)
    ∧ ((connect (some [aGood]) .noMsg cancelNone .noMsg 0).success = true
      ∧ ∃ fd : Nat, (connect (some [aGood]) .noMsg cancelNone .noMsg 0).sockfd
          = Int.ofNat fd) :=
  ⟨(c10_return_value none .noMsg cancelNone .noMsg 0).2.2.1 rfl,
    ⟨by decide,
      (c10_return_value (some [aGood]) .noMsg cancelNone .noMsg 0).2.1 (by decide)⟩⟩


end SocketConnect
